import Mathlib

/-!
Shallow embedding of Blender EEVEE's indirect lighting cache module
(`eevee_lightcache.c`): light-cache validation, irradiance-pool sizing,
hierarchical grid-cell indexing, probe counting/gathering, and the
sample-by-sample light-bake job, together with theorems about them.

Machine integers: all quantities involved (probe resolutions, sample
counts, texture sizes) are small nonnegative C `int` values; they are
modelled as `Nat`, with C integer division/modulo matching `Nat` division
and modulo on nonnegative values.  The C float expressions modelled here
(`ceilf(a / b)` on nonnegative integers, `floorf(log2f(n))` on a positive
integer) are modelled by exact ceiling division and `Nat.log2`.
-/

/-- Texture-array dimensions of a GPU 2D array texture:
(width, height, layer count), as reported by `GPU_texture_width`,
`GPU_texture_height`, `GPU_texture_layers`. -/
structure TexDims where
  width : Nat
  height : Nat
  layers : Nat
deriving DecidableEq

/-- The `LIGHTCACHE_*` status-flag bits of `EEVEE_LightCache.flag`,
modelled as a record of booleans (each flag is a distinct bit). -/
structure LightCacheFlag where
  update_world : Bool
  update_cube : Bool
  update_grid : Bool
  baking : Bool
  cube_ready : Bool
  grid_ready : Bool
  baked : Bool
deriving DecidableEq

/-- Resolution of an irradiance grid probe
(`grid_resolution_x/y/z` of `LightProbe`, also `EEVEE_LightGrid.resolution`;
the gather step copies the former into the latter). -/
structure GridRes where
  x : Nat
  y : Nat
  z : Nat
deriving DecidableEq

/-- A local cell coordinate inside a grid probe (`r_local_cell[3]`). -/
structure LocalCell where
  x : Nat
  y : Nat
  z : Nat
deriving DecidableEq

/-- Per-grid metadata record (`EEVEE_LightGrid`): resolution and offset
into the shared irradiance sample space. -/
structure GridEntry where
  res : GridRes
  offset : Nat
deriving DecidableEq

/-- The fields of `EEVEE_LightCache` relevant to this development:
the two texture arrays (dimensions), status flags, probe counts,
per-probe metadata and the visibility resolution. -/
structure LightCache where
  grid_tx : TexDims
  cube_tx : TexDims
  flag : LightCacheFlag
  cube_count : Nat
  grid_count : Nat
  grid_data : List GridEntry
  cube_data_count : Nat
  vis_res : Nat
deriving DecidableEq

/-- Constant `IRRADIANCE_MAX_POOL_LAYER` (OpenGL 3.3 core layer-count limit). -/
def IRRADIANCE_MAX_POOL_LAYER : Nat := 256

/-- Constant `IRRADIANCE_MAX_POOL_SIZE`. -/
def IRRADIANCE_MAX_POOL_SIZE : Nat := 1024

/-- Value `irr_per_vis` of `irradiance_pool_size_get`: how many irradiance
samples fit per visibility sample.  The irradiance sample tile size
(`IRRADIANCE_SAMPLE_SIZE_X/Y`) is one of (4,4), (8,8), (4,2) depending on
which of `IRRADIANCE_SH_L2` / `IRRADIANCE_CUBEMAP` / `IRRADIANCE_HL2` is
defined in `eevee_private.h` (outside this repository); it is kept as the
parameter pair `ssx`, `ssy` and theorems hold for any positive values. -/
def irr_per_vis (ssx ssy visibility_size : Nat) : Nat :=
  (visibility_size / ssx) * (visibility_size / ssy)

/-- Value `layer_ct` of `irradiance_pool_size_get`: irradiance itself takes one
layer, hence the `+ 1`, clamped to `IRRADIANCE_MAX_POOL_LAYER`. -/
def layer_ct (ssx ssy visibility_size : Nat) : Nat :=
  min (irr_per_vis ssx ssy visibility_size + 1) IRRADIANCE_MAX_POOL_LAYER

/-- Function `irradiance_pool_size_get(visibility_size, total_samples, r_size)`.
`texel_ct = ceilf(total_samples / (layer_ct - 1))` is modelled by exact
ceiling division; the function returns `none` exactly when one of its two
divisors (`layer_ct - 1`, and `IRRADIANCE_MAX_POOL_SIZE / visibility_size`
in the `r_size[1]` line) is zero, in which case the C code divides by
zero. -/
def irradiance_pool_size_get (ssx ssy visibility_size total_samples : Nat) :
    Option (Nat × Nat × Nat) :=
  let lc := layer_ct ssx ssy visibility_size
  if lc - 1 = 0 then none
  else if IRRADIANCE_MAX_POOL_SIZE / visibility_size = 0 then none
  else
    let texel_ct := (total_samples + (lc - 1) - 1) / (lc - 1)
    some (visibility_size *
            max 1 (min texel_ct (IRRADIANCE_MAX_POOL_SIZE / visibility_size)),
          visibility_size *
            max 1 (texel_ct / (IRRADIANCE_MAX_POOL_SIZE / visibility_size)),
          lc)

/-- Function `EEVEE_lightcache_validate(light_cache, cube_count, cube_res, irr_size)`:
`none` models a NULL `light_cache` pointer. -/
def EEVEE_lightcache_validate (light_cache : Option LightCache)
    (cube_count cube_res : Nat) (irr_size : Nat × Nat × Nat) : Bool :=
  match light_cache with
  | some c =>
      if irr_size.1 = c.grid_tx.width ∧ irr_size.2.1 = c.grid_tx.height ∧
         irr_size.2.2 = c.grid_tx.layers then
        if cube_res = c.cube_tx.width ∧ cube_count = c.cube_tx.layers then
          true
        else false
      else false
  | none => false

/-- Function `cell_id_to_grid_loc(egrid, cell_idx, r_local_cell)`: linear cell
index to 3D local cell coordinate. -/
def cell_id_to_grid_loc (res : GridRes) (cell_idx : Nat) : LocalCell :=
  { z := cell_idx % res.z,
    y := (cell_idx / res.z) % res.y,
    x := cell_idx / (res.z * res.y) }

/-- Value `cell_count` of `compute_cell_id`: the number of cells of a grid. -/
def cellCount (res : GridRes) : Nat := res.x * res.y * res.z

/-- Fuel-based floor base-2 logarithm (kernel-reducible version of
`Nat.log2`; `log2Aux fuel n = Nat.log2 n` whenever `n ≤ fuel`). -/
def log2Aux : Nat → Nat → Nat
  | 0, _ => 0
  | fuel + 1, n => if 2 ≤ n then log2Aux fuel (n / 2) + 1 else 0

/-- Floor base-2 logarithm, `Nat.log2` made structurally recursive. -/
def log2floor (n : Nat) : Nat := log2Aux n n

/-- Value `max_lvl` of `compute_cell_id`:
`(int)floorf(log2f((float)MAX3(rx, ry, rz)))`, i.e. the floor base-2
logarithm of the largest resolution component. -/
def max_lvl (res : GridRes) : Nat := log2floor (max res.x (max res.y res.z))

/-- Whether all three local-cell coordinates of cell `i` are multiples of
the stride `2 ^ lvl` (the `(r_local_cell[k] % stride) == 0` test). -/
def onLevel (res : GridRes) (lvl i : Nat) : Bool :=
  let c := cell_id_to_grid_loc res i
  c.x % 2 ^ lvl == 0 && c.y % 2 ^ lvl == 0 && c.z % 2 ^ lvl == 0

/-- The visit condition of `compute_cell_id`'s inner loop at level `lvl`
(with `stride = 1 << lvl` and `prev_stride = stride << 1`): the cell lies
on the current level but is not already on the previous, coarser level —
except that the very first cell of the coarsest level is always visited. -/
def visitPass (res : GridRes) (lvl i : Nat) : Bool :=
  onLevel res lvl i &&
    (!(onLevel res (lvl + 1) i) || (i == 0 && lvl == max_lvl res))

/-- The cells visited by `compute_cell_id`'s scan of one level, in
ascending linear-index order. -/
def levelSweep (res : GridRes) (lvl : Nat) : List Nat :=
  (List.range (cellCount res)).filter (fun i => visitPass res lvl i)

/-- The full hierarchical visit order of `compute_cell_id`: levels from
`max_lvl` down to `0`, each contributing its sweep; every element is
paired with the level it was visited at. -/
def cellVisitOrder (res : GridRes) : List (Nat × Nat) :=
  ((List.range (max_lvl res + 1)).reverse.map
    (fun lvl => (levelSweep res lvl).map (fun i => (i, lvl)))).flatten

/-- The results `compute_cell_id` returns through its out parameters. -/
structure CellSample where
  final_idx : Nat
  local_cell : LocalCell
  stride : Nat
deriving DecidableEq

/-- Function `compute_cell_id(egrid, probe, cell_idx, ...)`: the `cell_idx`-th
entry of the hierarchical visit order, with its local cell coordinate and
the stride of the level it was found at.  `none` models the
`BLI_assert(0)` fall-through when the sweep is exhausted before
`visited_cells` reaches `cell_idx`.  (`egrid->resolution` equals the
probe's `grid_resolution_x/y/z`; both are represented by `res`.) -/
def compute_cell_id (res : GridRes) (cell_idx : Nat) : Option CellSample :=
  ((cellVisitOrder res).get? cell_idx).map
    (fun p => { final_idx := p.1,
                local_cell := cell_id_to_grid_loc res p.1,
                stride := 2 ^ p.2 })

/-- A render-visible light-probe object of the scene
(`OB_LIGHTPROBE` objects as seen by `DEG_OBJECT_ITER_FOR_RENDER_ENGINE`),
classified by `LIGHTPROBE_TYPE_GRID` / `LIGHTPROBE_TYPE_CUBE`. -/
inductive ProbeData
  | grid (res : GridRes)
  | cube
deriving DecidableEq

/-- The three counters set by `eevee_lightbake_count_probes`. -/
structure ProbeCounts where
  grid_count : Nat
  cube_count : Nat
  total_irr_samples : Nat
deriving DecidableEq

/-- The loop body of `eevee_lightbake_count_probes`: a grid probe adds
its `grid_resolution_x * grid_resolution_y * grid_resolution_z` samples
and bumps the grid count, a cube probe bumps the cube count. -/
def countProbeStep (acc : ProbeCounts) (ob : ProbeData) : ProbeCounts :=
  match ob with
  | .grid res => { acc with
      total_irr_samples := acc.total_irr_samples + cellCount res,
      grid_count := acc.grid_count + 1 }
  | .cube => { acc with cube_count := acc.cube_count + 1 }

/-- Function `eevee_lightbake_count_probes(lbake)`: counts grid and cube probes
and sums grid sample counts, starting each counter at 1 for the world. -/
def eevee_lightbake_count_probes (scene : List ProbeData) : ProbeCounts :=
  scene.foldl countProbeStep { grid_count := 1, cube_count := 1, total_irr_samples := 1 }

/-- Modelled from the spec: `EEVEE_lightprobes_grid_data_from_object`
(in `eevee_lightprobes.c`, outside this repository) fills each
`EEVEE_LightGrid` record and assigns it an `offset` into the shared
sample index space, accumulating the running sample total that starts at
1 for the world (slot 0).  `gatherGrids` returns the grid records in
scene order together with the final running total, as
`eevee_lightbake_gather_probes` produces them. -/
def gatherGridStep (acc : List GridEntry × Nat) (ob : ProbeData) :
    List GridEntry × Nat :=
  match ob with
  | .grid res => (acc.1 ++ [{ res := res, offset := acc.2 }], acc.2 + cellCount res)
  | .cube => acc

/-- See `gatherGridStep`; the gathered grid records with the final
running sample total. -/
def gatherGrids (scene : List ProbeData) : List GridEntry × Nat :=
  scene.foldl gatherGridStep ([], 1)

/-- One render/filter invocation issued to the render engine during a
bake sample (the `EEVEE_lightbake_render_*` / `EEVEE_lightbake_filter_*`
calls), recorded with the atlas slot it writes to. -/
inductive RenderOp
  | render_world
  | render_scene
  | filter_glossy (layer : Nat)
  | filter_diffuse (offset : Nat)
  | filter_visibility (offset : Nat)
  | grid_fill_clear
  | copy_irradiance
  | assert_fail
deriving DecidableEq

/-- One scheduling step of `EEVEE_lightbake_job`: the world sample
(`eevee_lightbake_render_world_sample`, carrying `lbake->grid_count`), a
grid sample (`eevee_lightbake_render_grid_sample`, carrying the current
bounce, the probe resolution, the grid record's offset, the sample index
within the grid, and whether it is the last sample of the bounce), or a
cube probe sample (`eevee_lightbake_render_probe_sample`, carrying
`lbake->cube_offset`). -/
inductive SampleDesc
  | world (grid_count : Nat)
  | grid (bounce : Nat) (res : GridRes) (offset : Nat) (sample : Nat) (is_last : Bool)
  | cube (cube_offset : Nat)
deriving DecidableEq

/-- The render/filter invocations issued by one sample callback, in
program order.  The world sample renders the world then filters glossy
slot 0 and diffuse slot 0 and clears/copies the irradiance texture; a
grid sample renders the scene at the cell position then filters diffuse
into `offset + sample_id`, filters visibility into the same slot on
bounce 0 only, and snapshots the irradiance after the bounce's last
sample; a cube sample renders the scene and filters glossy into its cube
layer. -/
def sampleRenderOps : SampleDesc → List RenderOp
  | .world _ =>
      [.render_world, .filter_glossy 0, .filter_diffuse 0, .grid_fill_clear,
       .copy_irradiance]
  | .grid bounce res offset sample is_last =>
      match compute_cell_id res sample with
      | some cs =>
          [.render_scene, .filter_diffuse (offset + cs.final_idx)] ++
          (if bounce = 0 then [.filter_visibility (offset + cs.final_idx)] else []) ++
          (if is_last then [.copy_irradiance] else [])
      | none => [.assert_fail]
  | .cube cube_offset => [.render_scene, .filter_glossy cube_offset]

/-- The mutation each sample callback applies to the light cache:
the world sample sets `cube_count = 1`, `grid_count = lbake->grid_count`,
raises `LIGHTCACHE_CUBE_READY | LIGHTCACHE_GRID_READY` and clears
`LIGHTCACHE_UPDATE_WORLD`; a grid sample leaves these fields unchanged;
a cube sample increments `cube_count`. -/
def sampleCacheEffect : SampleDesc → LightCache → LightCache
  | .world gc, c =>
      { c with cube_count := 1, grid_count := gc,
               flag := { c.flag with cube_ready := true, grid_ready := true,
                                     update_world := false } }
  | .grid _ _ _ _ _, c => c
  | .cube _, c => { c with cube_count := c.cube_count + 1 }

/-- The job state threaded through `EEVEE_lightbake_job`: the shared
light cache, the `done`/`total` counters, the externally visible
`*progress` and `*do_update` outputs, the log of render/filter
invocations committed so far (the texture contents written by completed
samples), and the number of `lightbake_do_sample` calls made so far
(modelling the passage of time for the `G.is_break` reads). -/
structure JobState where
  cache : LightCache
  done : Nat
  total : Nat
  progress : ℚ
  do_update : Bool
  writes : List RenderOp
  attempts : Nat

/-- Function `lightbake_do_sample(lbake, render_callback)`: if the cancellation
flag `G.is_break` is set, return `false` without rendering; otherwise run
the callback (committing its render/filter writes and cache mutation),
increment `done`, publish `*progress = done / total` and raise
`*do_update`, returning `true`.  `is_break` is the value of the global
`G.is_break` at this call. -/
def lightbake_do_sample (is_break : Bool) (d : SampleDesc) (st : JobState) :
    Bool × JobState :=
  if is_break then (false, st)
  else
    (true,
     { st with
         cache := sampleCacheEffect d st.cache,
         writes := st.writes ++ sampleRenderOps d,
         done := st.done + 1,
         progress := ((st.done + 1 : Nat) : ℚ) / (st.total : ℚ),
         do_update := true })

/-- A run of consecutive `lightbake_do_sample` calls, one per scheduled
sample descriptor; `brk t` is the value of `G.is_break` observed by the
`t`-th `lightbake_do_sample` call of the job.  The `Bool` result of each
call is discarded, exactly as `EEVEE_lightbake_job` discards it. -/
def runSamples (brk : Nat → Bool) (descs : List SampleDesc) (st : JobState) :
    JobState :=
  descs.foldl
    (fun s d =>
      { (lightbake_do_sample (brk s.attempts) d s).2 with attempts := s.attempts + 1 })
    st

/-- The grid-bounce part of the job's schedule: for each bounce, for each
gathered grid probe (world slot bypassed), for each sample index in
`[0, grid_sample_count)`, one grid sample.  `is_last` is
`(egrid->offset + lbake->grid_sample) == (lbake->total_irr_samples - 1)`. -/
def gridPhaseDescs (bounce_count : Nat) (grids : List GridEntry)
    (total_irr_samples : Nat) : List SampleDesc :=
  (List.range bounce_count).flatMap fun b =>
    grids.flatMap fun g =>
      (List.range (cellCount g.res)).map fun s =>
        SampleDesc.grid b g.res g.offset s (g.offset + s == total_irr_samples - 1)

/-- The cube part of the job's schedule: one sample per gathered cube
probe, `cube_offset` running from 1 to `lbake->cube_count - 1`. -/
def cubePhaseDescs (cube_count : Nat) : List SampleDesc :=
  (List.range (cube_count - 1)).map fun i => SampleDesc.cube (i + 1)

/-- The full ordered sample schedule of one `EEVEE_lightbake_job` run:
the world sample (only when `LIGHTCACHE_UPDATE_WORLD` is set at job
start), then all grid-bounce samples, then all cube samples.  The `t`-th
entry of this list is handled by the `t`-th `lightbake_do_sample` call. -/
def jobSampleDescs (scene : List ProbeData) (bounce_count : Nat)
    (cache0 : LightCache) : List SampleDesc :=
  let counts := eevee_lightbake_count_probes scene
  (if cache0.flag.update_world then [SampleDesc.world counts.grid_count] else []) ++
  gridPhaseDescs bounce_count (gatherGrids scene).1 counts.total_irr_samples ++
  cubePhaseDescs counts.cube_count

/-- Function `EEVEE_lightbake_job(custom_data, stop, do_update, progress)`:
gathers probes (setting `total = total_irr_samples * bounce_count +
cube_count` and `done = 0`), renders the world sample if
`LIGHTCACHE_UPDATE_WORLD` is set, then all grid bounces, then resets
`lcache->cube_count` to 1 and renders all cube samples, and finally
raises `LIGHTCACHE_BAKED` unconditionally.  `brk t` is the value of the
cancellation flag `G.is_break` observed by the `t`-th
`lightbake_do_sample` call. -/
def EEVEE_lightbake_job (brk : Nat → Bool) (scene : List ProbeData)
    (bounce_count : Nat) (cache0 : LightCache) : JobState :=
  let counts := eevee_lightbake_count_probes scene
  let grids := (gatherGrids scene).1
  let st0 : JobState :=
    { cache := { cache0 with grid_data := grids,
                             cube_data_count := counts.cube_count - 1 },
      done := 0,
      total := counts.total_irr_samples * bounce_count + counts.cube_count,
      progress := 0, do_update := false, writes := [], attempts := 0 }
  let st1 :=
    if cache0.flag.update_world then
      runSamples brk [SampleDesc.world counts.grid_count] st0
    else st0
  let st2 :=
    runSamples brk (gridPhaseDescs bounce_count grids counts.total_irr_samples) st1
  let st3 := { st2 with cache := { st2.cache with cube_count := 1 } }
  let st4 := runSamples brk (cubePhaseDescs counts.cube_count) st3
  { st4 with cache := { st4.cache with
      flag := { st4.cache.flag with baked := true } } }

/-- Function `EEVEE_lightbake_update_world_quick(sldata, vedata, scene)`: the
lightweight world refresh run from the viewport.  It re-renders the world
probe and refilters slots 0 (returned separately as its render/filter
invocations), keeps `grid_count` at `max_ii(1, grid_count)` so already
rendered grids are not hidden, resets `cube_count` to 1, raises
`LIGHTCACHE_CUBE_READY | LIGHTCACHE_GRID_READY` and clears
`LIGHTCACHE_UPDATE_WORLD`. -/
def EEVEE_lightbake_update_world_quick (lcache : LightCache) :
    LightCache × List RenderOp :=
  ({ lcache with
       grid_count := max 1 lcache.grid_count,
       cube_count := 1,
       flag := { lcache.flag with cube_ready := true, grid_ready := true,
                                  update_world := false } },
   [.render_world, .filter_glossy 0, .filter_diffuse 0])

/-- The cancellation schedule of a stop request arriving before the
`k`-th sample: `G.is_break` is clear for the first `k`
`lightbake_do_sample` calls and set from the `k`-th call on. -/
def brkFrom (k : Nat) : Nat → Bool := fun t => k ≤ t

/-- The render/filter invocations committed by a run of
`lightbake_do_sample` calls over `descs` starting at attempt time `t0`:
each non-cancelled call contributes its callback's invocations in order,
cancelled calls contribute nothing. -/
def completedOps (brk : Nat → Bool) (t0 : Nat) : List SampleDesc → List RenderOp
  | [] => []
  | d :: ds =>
      (if brk t0 then [] else sampleRenderOps d) ++ completedOps brk (t0 + 1) ds

/-- The number of samples completed (not cancelled) by a run of
`lightbake_do_sample` calls over `descs` starting at attempt time `t0`. -/
def completedCount (brk : Nat → Bool) (t0 : Nat) : List SampleDesc → Nat
  | [] => 0
  | _ :: ds => (if brk t0 then 0 else 1) + completedCount brk (t0 + 1) ds

/-- The per-object grid sample counts of a scene: `resX * resY * resZ`
for each grid probe, in scene order (the quantity the counting pass
accumulates). -/
def gridSampleCounts (scene : List ProbeData) : List Nat :=
  scene.filterMap fun p =>
    match p with
    | ProbeData.grid res => some (cellCount res)
    | ProbeData.cube => none

/-- The number of cube probes of a scene. -/
def cubeProbeCount (scene : List ProbeData) : Nat :=
  scene.countP fun p =>
    match p with
    | ProbeData.cube => true
    | _ => false

/-- Whether a render/filter invocation is the world render
(`EEVEE_lightbake_render_world`). -/
def isWorldRender (o : RenderOp) : Bool :=
  match o with
  | RenderOp.render_world => true
  | _ => false

/-- Whether a scheduled sample is the world sample. -/
def isWorldDesc (d : SampleDesc) : Bool :=
  match d with
  | SampleDesc.world _ => true
  | _ => false

/-- Whether an invocation is a diffuse filter
(`EEVEE_lightbake_filter_diffuse`). -/
def isDiffuseFilter (o : RenderOp) : Bool :=
  match o with
  | RenderOp.filter_diffuse _ => true
  | _ => false

/-- Whether an invocation is a glossy (reflection) filter
(`EEVEE_lightbake_filter_glossy`). -/
def isGlossyFilter (o : RenderOp) : Bool :=
  match o with
  | RenderOp.filter_glossy _ => true
  | _ => false

/-- Whether an invocation is a visibility filter
(`EEVEE_lightbake_filter_visibility`). -/
def isVisibilityFilter (o : RenderOp) : Bool :=
  match o with
  | RenderOp.filter_visibility _ => true
  | _ => false

/-- C2 The light-cache validation test succeeds iff the cache exists and
all five shape parameters match exactly: the three components of
`irr_size` against the grid texture's width/height/layer count,
`cube_res` against the cube texture's width, and `cube_count` against the
cube texture's layer count.  Any single mismatch yields `false`. -/
theorem lightcache_validate_iff (light_cache : Option LightCache)
    (cube_count cube_res : Nat) (irr_size : Nat × Nat × Nat) :
    EEVEE_lightcache_validate light_cache cube_count cube_res irr_size = true ↔
      ∃ c, light_cache = some c ∧
        irr_size.1 = c.grid_tx.width ∧ irr_size.2.1 = c.grid_tx.height ∧
        irr_size.2.2 = c.grid_tx.layers ∧ cube_res = c.cube_tx.width ∧
        cube_count = c.cube_tx.layers := by
  cases light_cache with
  | none => simp [EEVEE_lightcache_validate]
  | some c =>
      simp only [EEVEE_lightcache_validate, Option.some.injEq]
      constructor
      · intro h
        split_ifs at h with h1 h2
        exact ⟨c, rfl, h1.1, h1.2.1, h1.2.2, h2.1, h2.2⟩
      · rintro ⟨c', hc, h1, h2, h3, h4, h5⟩
        cases hc
        rw [if_pos ⟨h1, h2, h3⟩, if_pos ⟨h4, h5⟩]

/-- C10 The quick world refresh leaves `cube_count` equal to exactly 1
and `grid_count` equal to `max 1` of its previous value (preserving baked
grids but discarding every non-world cube probe), sets
`LIGHTCACHE_CUBE_READY` and `LIGHTCACHE_GRID_READY`, clears
`LIGHTCACHE_UPDATE_WORLD`, and leaves every other cache field (textures,
metadata arrays, visibility resolution, and the remaining flags)
unchanged. -/
theorem update_world_quick_effect (c : LightCache) :
    ((EEVEE_lightbake_update_world_quick c).1.cube_count = 1 ∧
     (EEVEE_lightbake_update_world_quick c).1.grid_count = max 1 c.grid_count) ∧
    ((EEVEE_lightbake_update_world_quick c).1.flag.cube_ready = true ∧
     (EEVEE_lightbake_update_world_quick c).1.flag.grid_ready = true ∧
     (EEVEE_lightbake_update_world_quick c).1.flag.update_world = false) ∧
    ((EEVEE_lightbake_update_world_quick c).1.flag.update_cube = c.flag.update_cube ∧
     (EEVEE_lightbake_update_world_quick c).1.flag.update_grid = c.flag.update_grid ∧
     (EEVEE_lightbake_update_world_quick c).1.flag.baking = c.flag.baking ∧
     (EEVEE_lightbake_update_world_quick c).1.flag.baked = c.flag.baked) ∧
    ((EEVEE_lightbake_update_world_quick c).1.grid_tx = c.grid_tx ∧
     (EEVEE_lightbake_update_world_quick c).1.cube_tx = c.cube_tx ∧
     (EEVEE_lightbake_update_world_quick c).1.grid_data = c.grid_data ∧
     (EEVEE_lightbake_update_world_quick c).1.cube_data_count = c.cube_data_count ∧
     (EEVEE_lightbake_update_world_quick c).1.vis_res = c.vis_res) :=
  ⟨⟨rfl, rfl⟩, ⟨rfl, rfl, rfl⟩, ⟨rfl, rfl, rfl, rfl⟩, ⟨rfl, rfl, rfl, rfl, rfl⟩⟩

/-- C6 counterexample: the pool height returned by
`irradiance_pool_size_get` is not clamped and exceeds
`IRRADIANCE_MAX_POOL_SIZE` for large sample totals (visibility size 8,
one million samples gives height 7808 > 1024), refuting the claim that
the returned size never exceeds the maximum pool bounds. -/
theorem irradiance_pool_height_exceeds :
    irradiance_pool_size_get 4 2 8 1000000 = some (1024, 7808, 9) ∧
    ¬(7808 ≤ IRRADIANCE_MAX_POOL_SIZE) := by decide

/-- Arithmetic facts shared by the pool-size theorems: for a visibility
size in its valid range the per-visibility count is at least 1, the layer
count is between 2 and the pool layer bound, and the width quota
`IRRADIANCE_MAX_POOL_SIZE / visibility_size` is at least 1. -/
theorem pool_size_valid_range (ssx ssy vis : Nat) (hsx : 0 < ssx) (hsy : 0 < ssy)
    (hvx : ssx ≤ vis) (hvy : ssy ≤ vis) (hvm : vis ≤ IRRADIANCE_MAX_POOL_SIZE) :
    1 ≤ irr_per_vis ssx ssy vis ∧ 2 ≤ layer_ct ssx ssy vis ∧
    layer_ct ssx ssy vis ≤ IRRADIANCE_MAX_POOL_LAYER ∧
    1 ≤ IRRADIANCE_MAX_POOL_SIZE / vis := by
  have hipv : 1 ≤ irr_per_vis ssx ssy vis := by
    have h1 : 1 ≤ vis / ssx := (Nat.one_le_div_iff hsx).2 hvx
    have h2 : 1 ≤ vis / ssy := (Nat.one_le_div_iff hsy).2 hvy
    simpa [irr_per_vis] using Nat.mul_le_mul h1 h2
  refine ⟨hipv, ?_, ?_, ?_⟩
  · exact le_min (by omega) (by norm_num [IRRADIANCE_MAX_POOL_LAYER])
  · exact min_le_right _ _
  · exact (Nat.one_le_div_iff (by omega)).2 hvm

/-- C6 amended: for a fixed visibility size in its valid range (at least
the irradiance sample tile in both dimensions and at most
`IRRADIANCE_MAX_POOL_SIZE`), every component of the returned pool size is
monotonically non-decreasing in the total sample count, and the width and
the layer count never exceed the pool bounds — but the height component
is not clamped and can exceed `IRRADIANCE_MAX_POOL_SIZE` (see
`irradiance_pool_height_exceeds`). -/
theorem irradiance_pool_size_monotone (ssx ssy vis t1 t2 : Nat)
    (hsx : 0 < ssx) (hsy : 0 < ssy) (hvx : ssx ≤ vis) (hvy : ssy ≤ vis)
    (hvm : vis ≤ IRRADIANCE_MAX_POOL_SIZE) (ht : t1 ≤ t2) :
    ∃ s1 s2, irradiance_pool_size_get ssx ssy vis t1 = some s1 ∧
      irradiance_pool_size_get ssx ssy vis t2 = some s2 ∧
      s1.1 ≤ s2.1 ∧ s1.2.1 ≤ s2.2.1 ∧ s1.2.2 ≤ s2.2.2 ∧
      s1.1 ≤ IRRADIANCE_MAX_POOL_SIZE ∧ s2.1 ≤ IRRADIANCE_MAX_POOL_SIZE ∧
      s1.2.2 ≤ IRRADIANCE_MAX_POOL_LAYER ∧ s2.2.2 ≤ IRRADIANCE_MAX_POOL_LAYER := by
  obtain ⟨hipv, hlc2, hlcM, hquota⟩ :=
    pool_size_valid_range ssx ssy vis hsx hsy hvx hvy hvm
  set lc := layer_ct ssx ssy vis with hlc
  set K := IRRADIANCE_MAX_POOL_SIZE / vis with hKdef
  have hlc1 : ¬(lc - 1 = 0) := by omega
  have hK0 : ¬(K = 0) := by omega
  have hwidth : ∀ t, vis * max 1 (min ((t + (lc - 1) - 1) / (lc - 1)) K) ≤
      IRRADIANCE_MAX_POOL_SIZE := by
    intro t
    have h1 : max 1 (min ((t + (lc - 1) - 1) / (lc - 1)) K) ≤ K :=
      max_le hquota (min_le_right _ _)
    calc vis * max 1 (min ((t + (lc - 1) - 1) / (lc - 1)) K) ≤ vis * K :=
          Nat.mul_le_mul_left _ h1
      _ = K * vis := Nat.mul_comm _ _
      _ ≤ IRRADIANCE_MAX_POOL_SIZE := Nat.div_mul_le_self _ _
  have htexel : (t1 + (lc - 1) - 1) / (lc - 1) ≤ (t2 + (lc - 1) - 1) / (lc - 1) :=
    Nat.div_le_div_right (by omega)
  have hget : ∀ t, irradiance_pool_size_get ssx ssy vis t =
      some (vis * max 1 (min ((t + (lc - 1) - 1) / (lc - 1)) K),
            vis * max 1 ((t + (lc - 1) - 1) / (lc - 1) / K),
            lc) := by
    intro t
    simp only [irradiance_pool_size_get, ← hlc, ← hKdef, if_neg hlc1, if_neg hK0]
  exact ⟨_, _, hget t1, hget t2,
    Nat.mul_le_mul_left _ (max_le_max le_rfl (min_le_min htexel le_rfl)),
    Nat.mul_le_mul_left _ (max_le_max le_rfl (Nat.div_le_div_right htexel)),
    le_rfl, hwidth t1, hwidth t2, hlcM, hlcM⟩

/-- C6 witness: the amended monotonicity/bounds theorem instantiated at
the HL2 tile (4, 2), visibility size 8, totals 3 ≤ 5. -/
theorem irradiance_pool_size_monotone_witness :
    0 < 4 ∧ 0 < 2 ∧ 4 ≤ 8 ∧ 2 ≤ 8 ∧ 8 ≤ IRRADIANCE_MAX_POOL_SIZE ∧ 3 ≤ 5 ∧
    ∃ s1 s2, irradiance_pool_size_get 4 2 8 3 = some s1 ∧
      irradiance_pool_size_get 4 2 8 5 = some s2 ∧
      s1.1 ≤ s2.1 ∧ s1.2.1 ≤ s2.2.1 ∧ s1.2.2 ≤ s2.2.2 ∧
      s1.1 ≤ IRRADIANCE_MAX_POOL_SIZE ∧ s2.1 ≤ IRRADIANCE_MAX_POOL_SIZE ∧
      s1.2.2 ≤ IRRADIANCE_MAX_POOL_LAYER ∧ s2.2.2 ≤ IRRADIANCE_MAX_POOL_LAYER :=
  ⟨by decide, by decide, by decide, by decide, by decide, by decide,
   irradiance_pool_size_monotone 4 2 8 3 5 (by decide) (by decide) (by decide)
     (by decide) (by decide) (by decide)⟩

/-- C9 counterexample: a visibility size at least as large as the sample
tile does not make both divisors positive — at visibility size 2048 (tile
(4, 2)) the divisor `IRRADIANCE_MAX_POOL_SIZE / visibility_size` of the
`r_size[1]` line is zero and the C computation divides by zero (modelled
as `none`), refuting the claimed dichotomy. -/
theorem irradiance_pool_divisor_zero_large_vis :
    (4 ≤ 2048 ∧ 2 ≤ 2048) ∧ layer_ct 4 2 2048 - 1 ≠ 0 ∧
    IRRADIANCE_MAX_POOL_SIZE / 2048 = 0 ∧
    irradiance_pool_size_get 4 2 2048 7 = none := by decide

/-- C9 amended: for a visibility size at least the sample tile in both
dimensions AND at most `IRRADIANCE_MAX_POOL_SIZE`, both divisors of
`irradiance_pool_size_get` (`layer_ct - 1`, and
`IRRADIANCE_MAX_POOL_SIZE / visibility_size`) are strictly positive and
the computation is well-defined; whereas for a positive visibility size
below the tile in either dimension, `irr_per_vis` is 0, `layer_ct` is 1,
and the `texel_ct` computation divides by zero (modelled as `none`). -/
theorem irradiance_pool_divisors (ssx ssy vis t : Nat)
    (hsx : 0 < ssx) (hsy : 0 < ssy) :
    ((ssx ≤ vis ∧ ssy ≤ vis ∧ vis ≤ IRRADIANCE_MAX_POOL_SIZE) →
       1 ≤ layer_ct ssx ssy vis - 1 ∧ 1 ≤ IRRADIANCE_MAX_POOL_SIZE / vis ∧
       (irradiance_pool_size_get ssx ssy vis t).isSome = true) ∧
    ((0 < vis ∧ (vis < ssx ∨ vis < ssy)) →
       irr_per_vis ssx ssy vis = 0 ∧ layer_ct ssx ssy vis = 1 ∧
       irradiance_pool_size_get ssx ssy vis t = none) := by
  constructor
  · rintro ⟨hvx, hvy, hvm⟩
    obtain ⟨hipv, hlc2, hlcM, hquota⟩ :=
      pool_size_valid_range ssx ssy vis hsx hsy hvx hvy hvm
    refine ⟨by omega, hquota, ?_⟩
    simp only [irradiance_pool_size_get, if_neg (by omega : ¬(layer_ct ssx ssy vis - 1 = 0)),
      if_neg (by omega : ¬(IRRADIANCE_MAX_POOL_SIZE / vis = 0))]
    rfl
  · rintro ⟨hv0, hv⟩
    have hipv : irr_per_vis ssx ssy vis = 0 := by
      rcases hv with hv | hv
      · simp [irr_per_vis, Nat.div_eq_of_lt hv]
      · simp [irr_per_vis, Nat.div_eq_of_lt hv]
    have hlc : layer_ct ssx ssy vis = 1 := by
      simp [layer_ct, hipv, IRRADIANCE_MAX_POOL_LAYER]
    refine ⟨hipv, hlc, ?_⟩
    simp [irradiance_pool_size_get, hlc]

/-- C9 witness: the amended divisor dichotomy instantiated at the HL2
tile (4, 2): visibility 8 is in the valid range and yields a defined
size, visibility 3 is below the tile and divides by zero. -/
theorem irradiance_pool_divisors_witness :
    0 < 4 ∧ 0 < 2 ∧
    (1 ≤ layer_ct 4 2 8 - 1 ∧ 1 ≤ IRRADIANCE_MAX_POOL_SIZE / 8 ∧
      (irradiance_pool_size_get 4 2 8 7).isSome = true) ∧
    (irr_per_vis 4 2 3 = 0 ∧ layer_ct 4 2 3 = 1 ∧
      irradiance_pool_size_get 4 2 3 7 = none) :=
  ⟨by decide, by decide,
   (irradiance_pool_divisors 4 2 8 7 (by decide) (by decide)).1
     ⟨by decide, by decide, by decide⟩,
   (irradiance_pool_divisors 4 2 3 7 (by decide) (by decide)).2
     ⟨by decide, Or.inl (by decide)⟩⟩

theorem runSamples_nil (brk : Nat → Bool) (st : JobState) :
    runSamples brk [] st = st := rfl

theorem runSamples_cons (brk : Nat → Bool) (d : SampleDesc) (ds : List SampleDesc)
    (st : JobState) :
    runSamples brk (d :: ds) st =
      runSamples brk ds
        { (lightbake_do_sample (brk st.attempts) d st).2 with
            attempts := st.attempts + 1 } := rfl

theorem lightbake_do_sample_fields (b : Bool) (d : SampleDesc) (st : JobState) :
    (lightbake_do_sample b d st).2.total = st.total ∧
    (lightbake_do_sample b d st).2.attempts = st.attempts ∧
    (lightbake_do_sample b d st).2.writes =
      st.writes ++ (if b then [] else sampleRenderOps d) ∧
    (lightbake_do_sample b d st).2.done = st.done + (if b then 0 else 1) := by
  cases b <;> simp [lightbake_do_sample]

theorem runSamples_attempts (brk : Nat → Bool) (descs : List SampleDesc) :
    ∀ st : JobState,
      (runSamples brk descs st).attempts = st.attempts + descs.length := by
  induction descs with
  | nil => intro st; simp [runSamples_nil]
  | cons d ds ih =>
      intro st
      rw [runSamples_cons, ih]
      simp
      omega

theorem runSamples_total (brk : Nat → Bool) (descs : List SampleDesc) :
    ∀ st : JobState, (runSamples brk descs st).total = st.total := by
  induction descs with
  | nil => intro st; simp [runSamples_nil]
  | cons d ds ih =>
      intro st
      rw [runSamples_cons, ih]
      simp [(lightbake_do_sample_fields (brk st.attempts) d st).1]

theorem runSamples_writes (brk : Nat → Bool) (descs : List SampleDesc) :
    ∀ st : JobState,
      (runSamples brk descs st).writes =
        st.writes ++ completedOps brk st.attempts descs := by
  induction descs with
  | nil => intro st; simp [runSamples_nil, completedOps]
  | cons d ds ih =>
      intro st
      rw [runSamples_cons, ih]
      simp only [completedOps]
      rw [(lightbake_do_sample_fields (brk st.attempts) d st).2.2.1]
      simp [List.append_assoc]

theorem runSamples_done (brk : Nat → Bool) (descs : List SampleDesc) :
    ∀ st : JobState,
      (runSamples brk descs st).done =
        st.done + completedCount brk st.attempts descs := by
  induction descs with
  | nil => intro st; simp [runSamples_nil, completedCount]
  | cons d ds ih =>
      intro st
      rw [runSamples_cons, ih]
      simp only [completedCount]
      rw [(lightbake_do_sample_fields (brk st.attempts) d st).2.2.2]
      omega

theorem completedOps_append (brk : Nat → Bool) (l1 l2 : List SampleDesc) :
    ∀ t0, completedOps brk t0 (l1 ++ l2) =
      completedOps brk t0 l1 ++ completedOps brk (t0 + l1.length) l2 := by
  induction l1 with
  | nil => intro t0; simp [completedOps]
  | cons d ds ih =>
      intro t0
      have harith : t0 + 1 + ds.length = t0 + (ds.length + 1) := by omega
      simp only [List.cons_append, completedOps, List.append_eq, ih (t0 + 1),
        List.length_cons, harith, List.append_assoc]

theorem completedCount_append (brk : Nat → Bool) (l1 l2 : List SampleDesc) :
    ∀ t0, completedCount brk t0 (l1 ++ l2) =
      completedCount brk t0 l1 + completedCount brk (t0 + l1.length) l2 := by
  induction l1 with
  | nil => intro t0; simp [completedCount]
  | cons d ds ih =>
      intro t0
      have harith : t0 + 1 + ds.length = t0 + (ds.length + 1) := by omega
      simp only [List.cons_append, completedCount, List.append_eq, ih (t0 + 1),
        List.length_cons, harith]
      omega

theorem completedOps_noBreak (descs : List SampleDesc) :
    ∀ t0, completedOps (fun _ => false) t0 descs = descs.flatMap sampleRenderOps := by
  induction descs with
  | nil => intro t0; simp [completedOps]
  | cons d ds ih => intro t0; simp [completedOps, ih (t0 + 1)]

theorem completedCount_noBreak (descs : List SampleDesc) :
    ∀ t0, completedCount (fun _ => false) t0 descs = descs.length := by
  induction descs with
  | nil => intro t0; simp [completedCount]
  | cons d ds ih => intro t0; simp [completedCount, ih (t0 + 1)]; omega

theorem completedCount_le_length (brk : Nat → Bool) (descs : List SampleDesc) :
    ∀ t0, completedCount brk t0 descs ≤ descs.length := by
  induction descs with
  | nil => intro t0; simp [completedCount]
  | cons d ds ih =>
      intro t0
      have := ih (t0 + 1)
      simp only [completedCount, List.length_cons]
      split <;> omega

theorem completedOps_brkFrom (k : Nat) (descs : List SampleDesc) :
    ∀ t0, completedOps (brkFrom k) t0 descs =
      (descs.take (k - t0)).flatMap sampleRenderOps := by
  induction descs with
  | nil => intro t0; simp [completedOps]
  | cons d ds ih =>
      intro t0
      by_cases h : k ≤ t0
      · have h1 : k - t0 = 0 := by omega
        have h2 : k - (t0 + 1) = 0 := by omega
        simp [completedOps, brkFrom, h, h1, ih (t0 + 1), h2]
      · have h1 : k - t0 = (k - (t0 + 1)) + 1 := by omega
        rw [h1, List.take_succ_cons]
        simp [completedOps, brkFrom, h, ih (t0 + 1)]

theorem completedCount_brkFrom_le (k : Nat) (descs : List SampleDesc) :
    ∀ t0, completedCount (brkFrom k) t0 descs ≤ k - t0 := by
  induction descs with
  | nil => intro t0; simp [completedCount]
  | cons d ds ih =>
      intro t0
      have := ih (t0 + 1)
      by_cases h : k ≤ t0
      · have h1 : brkFrom k t0 = true := by simp [brkFrom, h]
        simp [completedCount, h1]
        omega
      · have h1 : brkFrom k t0 = false := by simp [brkFrom, h]
        simp [completedCount, h1]
        omega

theorem count_probes_fold (scene : List ProbeData) :
    ∀ init : ProbeCounts,
      scene.foldl countProbeStep init =
        { grid_count := init.grid_count + (gridSampleCounts scene).length,
          cube_count := init.cube_count + cubeProbeCount scene,
          total_irr_samples := init.total_irr_samples + (gridSampleCounts scene).sum } := by
  induction scene with
  | nil => intro init; simp [gridSampleCounts, cubeProbeCount]
  | cons p ps ih =>
      intro init
      cases p with
      | grid res =>
          simp [List.foldl_cons, ih, countProbeStep, gridSampleCounts,
            List.filterMap_cons, cubeProbeCount, List.countP_cons,
            ProbeCounts.mk.injEq]
          omega
      | cube =>
          simp [List.foldl_cons, ih, countProbeStep, gridSampleCounts,
            List.filterMap_cons, cubeProbeCount, List.countP_cons,
            ProbeCounts.mk.injEq]
          omega

theorem count_probes_spec (scene : List ProbeData) :
    eevee_lightbake_count_probes scene =
      { grid_count := 1 + (gridSampleCounts scene).length,
        cube_count := 1 + cubeProbeCount scene,
        total_irr_samples := 1 + (gridSampleCounts scene).sum } := by
  unfold eevee_lightbake_count_probes
  rw [count_probes_fold]

theorem gather_snd (scene : List ProbeData) :
    ∀ acc : List GridEntry × Nat,
      (scene.foldl gatherGridStep acc).2 = acc.2 + (gridSampleCounts scene).sum := by
  induction scene with
  | nil => intro acc; simp [gridSampleCounts]
  | cons p ps ih =>
      intro acc
      cases p with
      | grid res =>
          simp only [List.foldl_cons, gatherGridStep, ih, gridSampleCounts,
            List.filterMap_cons, List.sum_cons]
          omega
      | cube =>
          simp only [List.foldl_cons, gatherGridStep, ih, gridSampleCounts,
            List.filterMap_cons]

theorem gather_fst_sum (scene : List ProbeData) :
    ∀ acc : List GridEntry × Nat,
      (((scene.foldl gatherGridStep acc).1).map (fun g => cellCount g.res)).sum =
        (acc.1.map (fun g => cellCount g.res)).sum + (gridSampleCounts scene).sum := by
  induction scene with
  | nil => intro acc; simp [gridSampleCounts]
  | cons p ps ih =>
      intro acc
      cases p with
      | grid res =>
          simp only [List.foldl_cons, gatherGridStep, ih, gridSampleCounts,
            List.filterMap_cons, List.sum_cons, List.map_append, List.sum_append,
            List.map_cons, List.map_nil, List.sum_nil]
          omega
      | cube =>
          simp only [List.foldl_cons, gatherGridStep, ih, gridSampleCounts,
            List.filterMap_cons]

theorem gridPhaseDescs_length (bounce_count : Nat) (grids : List GridEntry)
    (tis : Nat) :
    (gridPhaseDescs bounce_count grids tis).length =
      bounce_count * (grids.map (fun g => cellCount g.res)).sum := by
  have hinner : ∀ b,
      (grids.flatMap fun g =>
        (List.range (cellCount g.res)).map fun s =>
          SampleDesc.grid b g.res g.offset s (g.offset + s == tis - 1)).length =
        (grids.map (fun g => cellCount g.res)).sum := by
    intro b
    induction grids with
    | nil => simp
    | cons g gs ih => simp [ih]
  induction bounce_count with
  | zero => simp [gridPhaseDescs]
  | succ n ih =>
      unfold gridPhaseDescs
      rw [List.range_succ, List.flatMap_append]
      unfold gridPhaseDescs at ih
      simp only [List.length_append, ih, List.flatMap_cons, List.flatMap_nil,
        List.append_nil, hinner n, Nat.succ_mul]

theorem cubePhaseDescs_length (cube_count : Nat) :
    (cubePhaseDescs cube_count).length = cube_count - 1 := by
  simp [cubePhaseDescs]

theorem job_total (brk : Nat → Bool) (scene : List ProbeData) (bounce_count : Nat)
    (c0 : LightCache) :
    (EEVEE_lightbake_job brk scene bounce_count c0).total =
      (eevee_lightbake_count_probes scene).total_irr_samples * bounce_count +
      (eevee_lightbake_count_probes scene).cube_count := by
  unfold EEVEE_lightbake_job
  by_cases h : c0.flag.update_world <;> simp [h, runSamples_total]

theorem job_baked (brk : Nat → Bool) (scene : List ProbeData) (bounce_count : Nat)
    (c0 : LightCache) :
    (EEVEE_lightbake_job brk scene bounce_count c0).cache.flag.baked = true := rfl

theorem job_writes (brk : Nat → Bool) (scene : List ProbeData) (bounce_count : Nat)
    (c0 : LightCache) :
    (EEVEE_lightbake_job brk scene bounce_count c0).writes =
      completedOps brk 0 (jobSampleDescs scene bounce_count c0) := by
  unfold EEVEE_lightbake_job jobSampleDescs
  by_cases h : c0.flag.update_world <;>
    simp [h, runSamples_writes, runSamples_attempts, completedOps_append,
      completedOps, List.append_assoc]

theorem job_done (brk : Nat → Bool) (scene : List ProbeData) (bounce_count : Nat)
    (c0 : LightCache) :
    (EEVEE_lightbake_job brk scene bounce_count c0).done =
      completedCount brk 0 (jobSampleDescs scene bounce_count c0) := by
  unfold EEVEE_lightbake_job jobSampleDescs
  by_cases h : c0.flag.update_world <;>
    simp [h, runSamples_done, runSamples_attempts, completedCount_append,
      completedCount] <;> omega

/-- C4 At the start of sample scheduling (and unchanged throughout the
job), `lbake->total = total_irr_samples * bounce_count + cube_count`,
where `total_irr_samples` is 1 (for the world) plus the sum over all grid
probes of `resX * resY * resZ` as computed by the counting pass, and
`cube_count` is 1 (for the world) plus the number of cube probes. -/
theorem lightbake_total_counter (brk : Nat → Bool) (scene : List ProbeData)
    (bounce_count : Nat) (c0 : LightCache) :
    (eevee_lightbake_count_probes scene).total_irr_samples =
      1 + (gridSampleCounts scene).sum ∧
    (eevee_lightbake_count_probes scene).cube_count = 1 + cubeProbeCount scene ∧
    (EEVEE_lightbake_job brk scene bounce_count c0).total =
      (1 + (gridSampleCounts scene).sum) * bounce_count +
      (1 + cubeProbeCount scene) := by
  have hc := count_probes_spec scene
  refine ⟨by rw [hc], by rw [hc], ?_⟩
  rw [job_total, hc]

theorem completedCount_alwaysBreak (descs : List SampleDesc) :
    ∀ t0, completedCount (fun _ => true) t0 descs = 0 := by
  induction descs with
  | nil => intro t0; simp [completedCount]
  | cons d ds ih => intro t0; simp [completedCount, ih (t0 + 1)]

theorem lightbake_do_sample_progress (d : SampleDesc) (st : JobState) :
    (lightbake_do_sample false d st).2.progress =
      ((st.done + 1 : Nat) : ℚ) / (st.total : ℚ) ∧
    (lightbake_do_sample true d st).2.progress = st.progress := by
  simp [lightbake_do_sample]

theorem runSamples_progress_bounds (brk : Nat → Bool) (descs : List SampleDesc) :
    ∀ st : JobState, 0 ≤ st.progress → st.progress ≤ 1 →
      st.done + descs.length ≤ st.total → 0 < st.total →
      0 ≤ (runSamples brk descs st).progress ∧
        (runSamples brk descs st).progress ≤ 1 := by
  induction descs with
  | nil => intro st h0 h1 _ _; rw [runSamples_nil]; exact ⟨h0, h1⟩
  | cons d ds ih =>
      intro st h0 h1 hd ht
      rw [runSamples_cons]
      cases hb : brk st.attempts
      · refine ih _ ?_ ?_ ?_ ?_
        · simp only [lightbake_do_sample, Bool.false_eq_true, if_false]
          exact div_nonneg (by positivity) (by positivity)
        · simp only [lightbake_do_sample, Bool.false_eq_true, if_false]
          rw [div_le_one (by exact_mod_cast ht)]
          have hle : st.done + 1 ≤ st.total := by
            simp only [List.length_cons] at hd; omega
          exact_mod_cast hle
        · simp only [lightbake_do_sample, Bool.false_eq_true, if_false]
          simp only [List.length_cons] at hd
          omega
        · simp only [lightbake_do_sample, Bool.false_eq_true, if_false]
          exact ht
      · refine ih _ ?_ ?_ ?_ ?_
        · simp only [lightbake_do_sample, if_true]
          exact h0
        · simp only [lightbake_do_sample, if_true]
          exact h1
        · simp only [lightbake_do_sample, if_true]
          simp only [List.length_cons] at hd
          omega
        · simp only [lightbake_do_sample, if_true]
          exact ht

theorem gatherGrids_sum (scene : List ProbeData) :
    (((gatherGrids scene).1).map (fun g => cellCount g.res)).sum =
      (gridSampleCounts scene).sum := by
  have h := gather_fst_sum scene ([], 1)
  simpa [gatherGrids] using h

theorem jobSampleDescs_length_eq (scene : List ProbeData) (bounce_count : Nat)
    (c0 : LightCache) :
    (jobSampleDescs scene bounce_count c0).length =
      (if c0.flag.update_world then 1 else 0) +
      bounce_count * (gridSampleCounts scene).sum + cubeProbeCount scene := by
  by_cases h : c0.flag.update_world <;>
    simp [jobSampleDescs, h, gridPhaseDescs_length, cubePhaseDescs_length,
      gatherGrids_sum, count_probes_spec] <;> omega

theorem job_done_le_total (brk : Nat → Bool) (scene : List ProbeData)
    (bounce_count : Nat) (c0 : LightCache) :
    (EEVEE_lightbake_job brk scene bounce_count c0).done ≤
      (EEVEE_lightbake_job brk scene bounce_count c0).total := by
  rw [job_done, job_total, count_probes_spec]
  have h1 := completedCount_le_length brk (jobSampleDescs scene bounce_count c0) 0
  have h2 := jobSampleDescs_length_eq scene bounce_count c0
  have hif : (if c0.flag.update_world then 1 else 0) ≤ 1 := by split <;> omega
  have hexp : (1 + (gridSampleCounts scene).sum) * bounce_count =
      bounce_count * (gridSampleCounts scene).sum + bounce_count := by ring
  simp only [ProbeCounts.mk.injEq]
  omega

theorem job_progress_bounds (brk : Nat → Bool) (scene : List ProbeData)
    (bounce_count : Nat) (c0 : LightCache) :
    0 ≤ (EEVEE_lightbake_job brk scene bounce_count c0).progress ∧
      (EEVEE_lightbake_job brk scene bounce_count c0).progress ≤ 1 := by
  have hexp : (1 + (gridSampleCounts scene).sum) * bounce_count =
      bounce_count * (gridSampleCounts scene).sum + bounce_count := by ring
  set counts := eevee_lightbake_count_probes scene with hcounts
  have hcfields : counts.total_irr_samples = 1 + (gridSampleCounts scene).sum ∧
      counts.cube_count = 1 + cubeProbeCount scene := by
    rw [hcounts, count_probes_spec]; exact ⟨rfl, rfl⟩
  set grids := (gatherGrids scene).1 with hgrids
  set st0 : JobState :=
    { cache := { c0 with grid_data := grids,
                         cube_data_count := counts.cube_count - 1 },
      done := 0,
      total := counts.total_irr_samples * bounce_count + counts.cube_count,
      progress := 0, do_update := false, writes := [], attempts := 0 } with hst0
  set descsW : List SampleDesc := [SampleDesc.world counts.grid_count] with hdescsW
  set descsG := gridPhaseDescs bounce_count grids counts.total_irr_samples with hdescsG
  set descsC := cubePhaseDescs counts.cube_count with hdescsC
  set st1 := if c0.flag.update_world then runSamples brk descsW st0 else st0 with hst1
  set st2 := runSamples brk descsG st1 with hst2
  set st3 : JobState := { st2 with cache := { st2.cache with cube_count := 1 } }
    with hst3
  set st4 := runSamples brk descsC st3 with hst4
  have hgoal : (EEVEE_lightbake_job brk scene bounce_count c0).progress =
      st4.progress := rfl
  have hGlen : descsG.length = bounce_count * (gridSampleCounts scene).sum := by
    rw [hdescsG, gridPhaseDescs_length, hgrids, gatherGrids_sum]
  have hClen : descsC.length = cubeProbeCount scene := by
    rw [hdescsC, cubePhaseDescs_length]; omega
  have htot0 : st0.total =
      counts.total_irr_samples * bounce_count + counts.cube_count := rfl
  have htot_pos : 0 < st0.total := by rw [htot0]; omega
  -- phase 1: the optional world sample
  have h1 : (0 ≤ st1.progress ∧ st1.progress ≤ 1) ∧ st1.done ≤ 1 ∧
      st1.total = st0.total := by
    rw [hst1]
    by_cases h : c0.flag.update_world
    · rw [if_pos h]
      refine ⟨runSamples_progress_bounds brk descsW st0 le_rfl (by norm_num) ?_
          htot_pos, ?_, runSamples_total brk descsW st0⟩
      · have hdone0 : st0.done = 0 := rfl
        have hcc := hcfields.2
        rw [htot0, hdescsW, hdone0]
        simp only [List.length_cons, List.length_nil]
        omega
      · rw [runSamples_done]
        have := completedCount_le_length brk descsW st0.attempts
        rw [hdescsW] at this ⊢
        simpa using this
    · rw [if_neg h]
      have hdone0 : st0.done = 0 := rfl
      exact ⟨⟨le_rfl, by norm_num⟩, by omega, rfl⟩
  -- phase 2: the grid bounces
  have h2 : (0 ≤ st2.progress ∧ st2.progress ≤ 1) ∧
      st2.done ≤ 1 + descsG.length ∧ st2.total = st0.total := by
    refine ⟨runSamples_progress_bounds brk descsG st1 h1.1.1 h1.1.2 ?_
        (h1.2.2 ▸ htot_pos), ?_, (runSamples_total brk descsG st1).trans h1.2.2⟩
    · rw [h1.2.2, htot0, hGlen, hcfields.1, hcfields.2]
      have := h1.2.1
      omega
    · rw [runSamples_done brk descsG st1]
      have := completedCount_le_length brk descsG st1.attempts
      have h1d := h1.2.1
      omega
  -- phase 3: the cube samples (st3 shares done/progress/total with st2)
  have h3 : 0 ≤ st4.progress ∧ st4.progress ≤ 1 := by
    refine runSamples_progress_bounds brk descsC st3 h2.1.1 h2.1.2 ?_ ?_
    · show st2.done + descsC.length ≤ st2.total
      rw [h2.2.2, htot0, hClen, hcfields.1, hcfields.2]
      have := h2.2.1
      rw [hGlen] at this
      omega
    · show 0 < st2.total
      rw [h2.2.2]; exact htot_pos
  rw [hgoal]
  exact h3

/-- C5 Over an entire bake job, the `done` counter starts at 0, increases
by exactly 1 when a sample completes and stays unchanged when the sample
is cancelled, never exceeds `total`, and the progress fraction
`done / total` published after every completed sample always lies in
[0, 1].  (The cancellation schedule `brk` is arbitrary, so every
intermediate state of a run is the final state of a truncated run.) -/
theorem lightbake_progress_invariants (brk : Nat → Bool) (scene : List ProbeData)
    (bounce_count : Nat) (c0 : LightCache) (d : SampleDesc) (st : JobState) :
    ((lightbake_do_sample false d st).2.done = st.done + 1 ∧
     (lightbake_do_sample true d st).2.done = st.done) ∧
    (EEVEE_lightbake_job (fun _ => true) scene bounce_count c0).done = 0 ∧
    (EEVEE_lightbake_job brk scene bounce_count c0).done ≤
      (EEVEE_lightbake_job brk scene bounce_count c0).total ∧
    (0 ≤ (EEVEE_lightbake_job brk scene bounce_count c0).progress ∧
     (EEVEE_lightbake_job brk scene bounce_count c0).progress ≤ 1) := by
  refine ⟨⟨?_, ?_⟩, ?_, job_done_le_total brk scene bounce_count c0,
    job_progress_bounds brk scene bounce_count c0⟩
  · simp [lightbake_do_sample]
  · simp [lightbake_do_sample]
  · rw [job_done]; exact completedCount_alwaysBreak _ 0

/-- C3 counterexample: a job whose cancellation flag is set before the
very first sample renders nothing (`writes = []`, `done = 0`) although
one sample (the world pass) was scheduled — yet `EEVEE_lightbake_job`
still raises `LIGHTCACHE_BAKED` at the end, refuting the claim that
`LIGHTCACHE_BAKED` is set only when every scheduled sample ran to
completion. -/
theorem lightbake_job_baked_on_cancelled :
    (jobSampleDescs [] 1
        { grid_tx := ⟨1, 1, 1⟩, cube_tx := ⟨1, 1, 1⟩,
          flag := ⟨true, true, true, false, false, false, false⟩,
          cube_count := 1, grid_count := 1, grid_data := [],
          cube_data_count := 0, vis_res := 8 }).length = 1 ∧
    (EEVEE_lightbake_job (fun _ => true) [] 1
        { grid_tx := ⟨1, 1, 1⟩, cube_tx := ⟨1, 1, 1⟩,
          flag := ⟨true, true, true, false, false, false, false⟩,
          cube_count := 1, grid_count := 1, grid_data := [],
          cube_data_count := 0, vis_res := 8 }).writes = [] ∧
    (EEVEE_lightbake_job (fun _ => true) [] 1
        { grid_tx := ⟨1, 1, 1⟩, cube_tx := ⟨1, 1, 1⟩,
          flag := ⟨true, true, true, false, false, false, false⟩,
          cube_count := 1, grid_count := 1, grid_data := [],
          cube_data_count := 0, vis_res := 8 }).done = 0 ∧
    (EEVEE_lightbake_job (fun _ => true) [] 1
        { grid_tx := ⟨1, 1, 1⟩, cube_tx := ⟨1, 1, 1⟩,
          flag := ⟨true, true, true, false, false, false, false⟩,
          cube_count := 1, grid_count := 1, grid_data := [],
          cube_data_count := 0, vis_res := 8 }).cache.flag.baked = true := by
  refine ⟨rfl, rfl, rfl, rfl⟩

/-- C3 amended: if the cancellation flag becomes set before the `k`-th
`lightbake_do_sample` call, no further sample is rendered — the committed
writes are exactly those of the first `k` scheduled samples, a prefix of
an uncancelled run's writes, and at most `k` samples count as done — but
`LIGHTCACHE_BAKED` is raised unconditionally at the end of
`EEVEE_lightbake_job`, even on a cancelled job (it is not reserved for
full completion). -/
theorem lightbake_job_cancellation (k : Nat) (brk : Nat → Bool)
    (scene : List ProbeData) (bounce_count : Nat) (c0 : LightCache) :
    (EEVEE_lightbake_job (brkFrom k) scene bounce_count c0).writes =
      ((jobSampleDescs scene bounce_count c0).take k).flatMap sampleRenderOps ∧
    (∃ rest, (EEVEE_lightbake_job (fun _ => false) scene bounce_count c0).writes =
       (EEVEE_lightbake_job (brkFrom k) scene bounce_count c0).writes ++ rest) ∧
    (EEVEE_lightbake_job (brkFrom k) scene bounce_count c0).done ≤ k ∧
    (EEVEE_lightbake_job brk scene bounce_count c0).cache.flag.baked = true := by
  have hW := job_writes (brkFrom k) scene bounce_count c0
  have hN := job_writes (fun _ => false) scene bounce_count c0
  have htake : (EEVEE_lightbake_job (brkFrom k) scene bounce_count c0).writes =
      ((jobSampleDescs scene bounce_count c0).take k).flatMap sampleRenderOps := by
    rw [hW, completedOps_brkFrom, Nat.sub_zero]
  refine ⟨htake, ?_, ?_, job_baked brk scene bounce_count c0⟩
  · refine ⟨((jobSampleDescs scene bounce_count c0).drop k).flatMap sampleRenderOps, ?_⟩
    rw [hN, completedOps_noBreak, htake, ← List.flatMap_append,
      List.take_append_drop]
  · rw [job_done]
    have := completedCount_brkFrom_le k (jobSampleDescs scene bounce_count c0) 0
    omega

theorem worldRender_count_ops (d : SampleDesc) :
    (sampleRenderOps d).countP isWorldRender = if isWorldDesc d then 1 else 0 := by
  cases d with
  | world gc => rfl
  | grid b res off s l =>
      cases h : compute_cell_id res s with
      | none => simp [sampleRenderOps, h, isWorldDesc, isWorldRender]
      | some cs =>
          by_cases hb : b = 0 <;> cases l <;>
            simp [sampleRenderOps, h, hb, isWorldDesc, isWorldRender]
  | cube co => rfl

theorem countP_isWorldRender_flatMap (descs : List SampleDesc) :
    (descs.flatMap sampleRenderOps).countP isWorldRender =
      descs.countP isWorldDesc := by
  induction descs with
  | nil => rfl
  | cons d ds ih =>
      rw [List.flatMap_cons, List.countP_append, ih, List.countP_cons,
        worldRender_count_ops d]
      omega

theorem countP_worldDesc_jobDescs (scene : List ProbeData) (bounce_count : Nat)
    (c0 : LightCache) :
    (jobSampleDescs scene bounce_count c0).countP isWorldDesc =
      if c0.flag.update_world then 1 else 0 := by
  have hg : (gridPhaseDescs bounce_count (gatherGrids scene).1
      (eevee_lightbake_count_probes scene).total_irr_samples).countP isWorldDesc = 0 := by
    rw [List.countP_eq_zero]
    intro d hd
    simp only [gridPhaseDescs, List.mem_flatMap, List.mem_map, List.mem_range] at hd
    obtain ⟨b, -, g, -, s, -, rfl⟩ := hd
    simp [isWorldDesc]
  have hc : (cubePhaseDescs
      (eevee_lightbake_count_probes scene).cube_count).countP isWorldDesc = 0 := by
    rw [List.countP_eq_zero]
    intro d hd
    simp only [cubePhaseDescs, List.mem_map, List.mem_range] at hd
    obtain ⟨i, -, rfl⟩ := hd
    simp [isWorldDesc]
  by_cases h : c0.flag.update_world <;>
    simp [jobSampleDescs, List.countP_append, hg, hc, h, isWorldDesc]

/-- C7 The world pass is scheduled as exactly one sample, executed (in an
uncancelled job) iff `LIGHTCACHE_UPDATE_WORLD` is set in the cache when
the job starts, and upon completion of that sample the cache flags have
`LIGHTCACHE_CUBE_READY` and `LIGHTCACHE_GRID_READY` set and
`LIGHTCACHE_UPDATE_WORLD` cleared. -/
theorem lightbake_world_pass_spec (scene : List ProbeData)
    (bounce_count grid_count : Nat) (c0 cache : LightCache) :
    ((jobSampleDescs scene bounce_count c0).countP isWorldDesc =
       if c0.flag.update_world then 1 else 0) ∧
    ((EEVEE_lightbake_job (fun _ => false) scene bounce_count c0).writes.countP
        isWorldRender = if c0.flag.update_world then 1 else 0) ∧
    ((sampleCacheEffect (SampleDesc.world grid_count) cache).flag.cube_ready = true ∧
     (sampleCacheEffect (SampleDesc.world grid_count) cache).flag.grid_ready = true ∧
     (sampleCacheEffect (SampleDesc.world grid_count) cache).flag.update_world =
       false) := by
  refine ⟨countP_worldDesc_jobDescs scene bounce_count c0, ?_, rfl, rfl, rfl⟩
  rw [job_writes, completedOps_noBreak, countP_isWorldRender_flatMap,
    countP_worldDesc_jobDescs]

theorem log2Aux_eq_log2 (fuel : Nat) : ∀ n, n ≤ fuel → log2Aux fuel n = Nat.log2 n := by
  induction fuel with
  | zero =>
      intro n hn
      have hn0 : n = 0 := by omega
      subst hn0
      rw [log2Aux, Nat.log2]
      simp
  | succ f ih =>
      intro n hn
      rw [log2Aux, Nat.log2]
      by_cases h : 2 ≤ n
      · rw [if_pos h, if_pos h, ih (n / 2) (by omega)]
      · rw [if_neg h, if_neg h]

theorem log2floor_eq_log2 (n : Nat) : log2floor n = Nat.log2 n :=
  log2Aux_eq_log2 n n le_rfl

theorem lt_two_pow_log2floor_succ (n : Nat) : n < 2 ^ (log2floor n + 1) := by
  rw [log2floor_eq_log2, Nat.log2_eq_log_two]
  exact Nat.lt_pow_succ_log_self (by norm_num) n

theorem cell_id_to_grid_loc_lt (res : GridRes) (i : Nat)
    (hx : 0 < res.x) (hy : 0 < res.y) (hz : 0 < res.z) (hi : i < cellCount res) :
    (cell_id_to_grid_loc res i).x < res.x ∧
    (cell_id_to_grid_loc res i).y < res.y ∧
    (cell_id_to_grid_loc res i).z < res.z := by
  refine ⟨?_, Nat.mod_lt _ hy, Nat.mod_lt _ hz⟩
  show i / (res.z * res.y) < res.x
  rw [Nat.div_lt_iff_lt_mul (Nat.mul_pos hz hy)]
  have harith : res.x * (res.z * res.y) = res.x * res.y * res.z := by ring
  rw [harith]
  exact hi

theorem cell_id_to_grid_loc_zero (res : GridRes) :
    cell_id_to_grid_loc res 0 = ⟨0, 0, 0⟩ := by
  simp [cell_id_to_grid_loc]

theorem cell_id_to_grid_loc_eq_zero (res : GridRes) (i : Nat)
    (hy : 0 < res.y) (hz : 0 < res.z)
    (h : cell_id_to_grid_loc res i = ⟨0, 0, 0⟩) : i = 0 := by
  have h1 : i % res.z = 0 := congrArg LocalCell.z h
  have h2 : (i / res.z) % res.y = 0 := congrArg LocalCell.y h
  have h3 : i / (res.z * res.y) = 0 := congrArg LocalCell.x h
  have h4 : i < res.z * res.y := by
    by_contra hcon
    have := (Nat.div_eq_zero_iff (Nat.mul_pos hz hy)).1 h3
    omega
  have h5 : i / res.z < res.y := by
    rw [Nat.div_lt_iff_lt_mul hz]
    calc i < res.z * res.y := h4
      _ = res.y * res.z := Nat.mul_comm _ _
  have h6 : i / res.z = 0 := by rw [← Nat.mod_eq_of_lt h5]; exact h2
  have h7 : i < res.z := (Nat.div_eq_zero_iff hz).1 h6
  rw [← Nat.mod_eq_of_lt h7]
  exact h1

theorem onLevel_iff (res : GridRes) (lvl i : Nat) :
    onLevel res lvl i = true ↔
      2 ^ lvl ∣ (cell_id_to_grid_loc res i).x ∧
      2 ^ lvl ∣ (cell_id_to_grid_loc res i).y ∧
      2 ^ lvl ∣ (cell_id_to_grid_loc res i).z := by
  have hp : 0 < 2 ^ lvl := Nat.pos_pow_of_pos lvl (by norm_num)
  simp only [onLevel, Bool.and_eq_true, beq_iff_eq, Nat.dvd_iff_mod_eq_zero, and_assoc]

theorem onLevel_mono (res : GridRes) (i : Nat) {a b : Nat} (hab : a ≤ b)
    (h : onLevel res b i = true) : onLevel res a i = true := by
  rw [onLevel_iff] at h ⊢
  exact ⟨dvd_trans (pow_dvd_pow 2 hab) h.1,
    dvd_trans (pow_dvd_pow 2 hab) h.2.1,
    dvd_trans (pow_dvd_pow 2 hab) h.2.2⟩

theorem onLevel_zero_lvl (res : GridRes) (i : Nat) : onLevel res 0 i = true := by
  simp [onLevel, Nat.mod_one]

theorem onLevel_zero_cell (res : GridRes) (lvl : Nat) : onLevel res lvl 0 = true := by
  simp [onLevel, cell_id_to_grid_loc]

theorem not_onLevel_top (res : GridRes) (i : Nat)
    (hx : 0 < res.x) (hy : 0 < res.y) (hz : 0 < res.z)
    (hi : i < cellCount res) (hne : i ≠ 0) :
    onLevel res (max_lvl res + 1) i = false := by
  cases h : onLevel res (max_lvl res + 1) i
  · rfl
  exfalso
  rw [onLevel_iff] at h
  obtain ⟨hdx, hdy, hdz⟩ := h
  obtain ⟨hlx, hly, hlz⟩ := cell_id_to_grid_loc_lt res i hx hy hz hi
  have hmax : max res.x (max res.y res.z) < 2 ^ (max_lvl res + 1) :=
    lt_two_pow_log2floor_succ _
  have hbx : (cell_id_to_grid_loc res i).x < 2 ^ (max_lvl res + 1) := by
    have := le_max_left res.x (max res.y res.z); omega
  have hby : (cell_id_to_grid_loc res i).y < 2 ^ (max_lvl res + 1) := by
    have h1 := le_max_left res.y res.z
    have h2 := le_max_right res.x (max res.y res.z)
    omega
  have hbz : (cell_id_to_grid_loc res i).z < 2 ^ (max_lvl res + 1) := by
    have h1 := le_max_right res.y res.z
    have h2 := le_max_right res.x (max res.y res.z)
    omega
  have hex : (cell_id_to_grid_loc res i).x = 0 := Nat.eq_zero_of_dvd_of_lt hdx hbx
  have hey : (cell_id_to_grid_loc res i).y = 0 := Nat.eq_zero_of_dvd_of_lt hdy hby
  have hez : (cell_id_to_grid_loc res i).z = 0 := Nat.eq_zero_of_dvd_of_lt hdz hbz
  apply hne
  apply cell_id_to_grid_loc_eq_zero res i hy hz
  cases hloc : cell_id_to_grid_loc res i
  rw [hloc] at hex hey hez
  simp at hex hey hez
  simp [hex, hey, hez]

theorem visitPass_iff_of_ne (res : GridRes) (i lvl : Nat) (hne : i ≠ 0) :
    visitPass res lvl i = true ↔
      onLevel res lvl i = true ∧ onLevel res (lvl + 1) i = false := by
  simp [visitPass, hne, Bool.and_eq_true, Bool.or_eq_true, Bool.not_eq_true']

theorem visitPass_zero_iff (res : GridRes) (lvl : Nat) :
    visitPass res lvl 0 = true ↔ lvl = max_lvl res := by
  simp [visitPass, onLevel_zero_cell]

theorem exists_unique_visit_level (res : GridRes)
    (hx : 0 < res.x) (hy : 0 < res.y) (hz : 0 < res.z)
    (i : Nat) (hi : i < cellCount res) :
    ∃ lvl, (lvl ≤ max_lvl res ∧ visitPass res lvl i = true) ∧
      ∀ j, j ≤ max_lvl res → visitPass res j i = true → j = lvl := by
  by_cases hne : i = 0
  · subst hne
    refine ⟨max_lvl res, ⟨le_rfl, (visitPass_zero_iff res _).2 rfl⟩, ?_⟩
    intro j _ hj
    exact (visitPass_zero_iff res j).1 hj
  · have htop : onLevel res (max_lvl res + 1) i = false :=
      not_onLevel_top res i hx hy hz hi hne
    have h0 : onLevel res 0 i = true := onLevel_zero_lvl res i
    have hex : ∃ m, onLevel res m i = false := ⟨max_lvl res + 1, htop⟩
    set m0 := Nat.find hex with hm0def
    have hspec : onLevel res m0 i = false := Nat.find_spec hex
    have hmin : ∀ j, j < m0 → onLevel res j i = true := by
      intro j hj
      cases h : onLevel res j i
      · exact absurd h (Nat.find_min hex hj)
      · rfl
    have hm0pos : m0 ≠ 0 := by
      intro h
      rw [h] at hspec
      rw [hspec] at h0
      exact absurd h0 (by simp)
    obtain ⟨m, hm⟩ : ∃ m, m0 = m + 1 := ⟨m0 - 1, by omega⟩
    have hm_on : onLevel res m i = true := hmin m (by omega)
    have hm_off : onLevel res (m + 1) i = false := by rw [← hm]; exact hspec
    have hmle : m ≤ max_lvl res := by
      have h1 : m0 ≤ max_lvl res + 1 := Nat.find_le htop
      omega
    refine ⟨m, ⟨hmle, (visitPass_iff_of_ne res i m hne).2 ⟨hm_on, hm_off⟩⟩, ?_⟩
    intro j hj hpass
    obtain ⟨hj_on, hj_off⟩ := (visitPass_iff_of_ne res i j hne).1 hpass
    rcases lt_trichotomy j m with h | h | h
    · have hcon : onLevel res (j + 1) i = true := onLevel_mono res i (by omega) hm_on
      rw [hj_off] at hcon
      exact absurd hcon (by simp)
    · exact h
    · have hcon : onLevel res (m + 1) i = true := onLevel_mono res i (by omega) hj_on
      rw [hm_off] at hcon
      exact absurd hcon (by simp)

theorem count_range_eq (n a : Nat) :
    (List.range n).count a = if a < n then 1 else 0 := by
  by_cases h : a < n
  · rw [if_pos h]
    exact List.count_eq_one_of_mem (List.nodup_range n) (List.mem_range.2 h)
  · rw [if_neg h, List.count_eq_zero]
    exact fun hm => h (List.mem_range.1 hm)

theorem count_filter_range (n a : Nat) (p : Nat → Bool) :
    (((List.range n).filter p).count a) = if a < n ∧ p a = true then 1 else 0 := by
  by_cases h : a < n ∧ p a = true
  · rw [if_pos h]
    refine List.count_eq_one_of_mem ((List.nodup_range n).filter p) ?_
    rw [List.mem_filter, List.mem_range]
    exact ⟨h.1, h.2⟩
  · rw [if_neg h, List.count_eq_zero]
    intro hmem
    rw [List.mem_filter, List.mem_range] at hmem
    exact h ⟨hmem.1, hmem.2⟩

theorem sum_map_unique (f : Nat → Nat) (k : Nat) :
    ∀ l : List Nat, l.Nodup → k ∈ l → f k = 1 →
      (∀ j ∈ l, j ≠ k → f j = 0) → (l.map f).sum = 1 := by
  intro l
  induction l with
  | nil => intro _ hk; cases hk
  | cons a t ih =>
      intro hl hk hfk hz
      rw [List.map_cons, List.sum_cons]
      rcases List.mem_cons.1 hk with rfl | hk'
      · have hz' : ∀ x ∈ t.map f, x = 0 := by
          intro x hx
          rw [List.mem_map] at hx
          obtain ⟨j, hj, rfl⟩ := hx
          exact hz j (List.mem_cons_of_mem _ hj)
            (fun he => (List.nodup_cons.1 hl).1 (he ▸ hj))
        simp [hfk, List.sum_eq_zero hz']
      · have hne : a ≠ k := fun he => (List.nodup_cons.1 hl).1 (he ▸ hk')
        rw [hz a (List.mem_cons_self a t) hne,
          ih (List.nodup_cons.1 hl).2 hk' hfk
            (fun j hj hjne => hz j (List.mem_cons_of_mem _ hj) hjne)]

theorem visitedIdx_eq_flatten (res : GridRes) :
    (cellVisitOrder res).map Prod.fst =
      ((List.range (max_lvl res + 1)).reverse.map (fun lvl => levelSweep res lvl)).flatten := by
  rw [cellVisitOrder, List.map_flatten, List.map_map]
  congr 1
  apply List.map_congr_left
  intro lvl _
  have hid : (Prod.fst ∘ fun i : Nat => (i, lvl)) = id := by funext i; rfl
  rw [Function.comp_apply, List.map_map, hid, List.map_id]

theorem count_visitedIdx (res : GridRes)
    (hx : 0 < res.x) (hy : 0 < res.y) (hz : 0 < res.z) (a : Nat) :
    ((cellVisitOrder res).map Prod.fst).count a =
      if a < cellCount res then 1 else 0 := by
  rw [visitedIdx_eq_flatten, List.count_flatten, List.map_map]
  have hcnt : ((List.count a ∘ fun lvl => levelSweep res lvl)) =
      fun lvl => if a < cellCount res ∧ visitPass res lvl a = true then 1 else 0 := by
    funext lvl
    rw [Function.comp_apply]
    rw [levelSweep]
    exact count_filter_range (cellCount res) a (fun i => visitPass res lvl i)
  rw [hcnt]
  by_cases ha : a < cellCount res
  · rw [if_pos ha]
    obtain ⟨lvl, ⟨hlvl_le, hlvl_pass⟩, huniq⟩ :=
      exists_unique_visit_level res hx hy hz a ha
    refine sum_map_unique _ lvl _ ?_ ?_ ?_ ?_
    · rw [List.nodup_reverse]; exact List.nodup_range _
    · rw [List.mem_reverse, List.mem_range]; omega
    · rw [if_pos ⟨ha, hlvl_pass⟩]
    · intro j hj hjne
      rw [List.mem_reverse, List.mem_range] at hj
      rw [if_neg]
      rintro ⟨-, hjp⟩
      exact hjne (huniq j (by omega) hjp)
  · rw [if_neg ha]
    apply List.sum_eq_zero
    intro x hx'
    rw [List.mem_map] at hx'
    obtain ⟨lvl, -, rfl⟩ := hx'
    rw [if_neg]
    rintro ⟨hcon, -⟩
    exact ha hcon

theorem visit_perm (res : GridRes)
    (hx : 0 < res.x) (hy : 0 < res.y) (hz : 0 < res.z) :
    ((cellVisitOrder res).map Prod.fst).Perm (List.range (cellCount res)) := by
  rw [List.perm_iff_count]
  intro a
  rw [count_visitedIdx res hx hy hz a, count_range_eq]

theorem cellVisitOrder_length (res : GridRes)
    (hx : 0 < res.x) (hy : 0 < res.y) (hz : 0 < res.z) :
    (cellVisitOrder res).length = cellCount res := by
  have h := (visit_perm res hx hy hz).length_eq
  rw [List.length_map, List.length_range] at h
  exact h

theorem compute_cell_id_isSome (res : GridRes)
    (hx : 0 < res.x) (hy : 0 < res.y) (hz : 0 < res.z)
    (k : Nat) (hk : k < cellCount res) :
    (compute_cell_id res k).isSome = true := by
  rw [compute_cell_id]
  rw [List.get?_eq_get (by rw [cellVisitOrder_length res hx hy hz]; exact hk)]
  rfl

theorem filterMap_get?_range {α β : Type} (f : α → β) :
    ∀ l : List α,
      (List.range l.length).filterMap (fun k => (l.get? k).map f) = l.map f := by
  intro l
  induction l with
  | nil => simp
  | cons x xs ih =>
      rw [List.length_cons, List.range_succ_eq_map, List.filterMap_cons,
        List.filterMap_map]
      have hcomp : ((fun k => ((x :: xs).get? k).map f) ∘ Nat.succ) =
          fun k => (xs.get? k).map f := by
        funext k
        simp
      rw [hcomp, ih]
      rfl

theorem cellVisitOrder_head (res : GridRes)
    (hx : 0 < res.x) (hy : 0 < res.y) (hz : 0 < res.z) :
    (cellVisitOrder res).get? 0 = some (0, max_lvl res) := by
  have hrev : (List.range (max_lvl res + 1)).reverse =
      max_lvl res :: (List.range (max_lvl res)).reverse := by
    rw [List.range_succ, List.reverse_append]
    simp
  rw [cellVisitOrder, hrev, List.map_cons, List.flatten_cons]
  obtain ⟨m, hm⟩ : ∃ m, cellCount res = m + 1 :=
    ⟨cellCount res - 1, by
      have : 0 < cellCount res := Nat.mul_pos (Nat.mul_pos hx hy) hz
      omega⟩
  have hpass : visitPass res (max_lvl res) 0 = true :=
    (visitPass_zero_iff res _).2 rfl
  have hsweep : ∃ t, levelSweep res (max_lvl res) = 0 :: t := by
    rw [levelSweep, hm, List.range_succ_eq_map, List.filter_cons, if_pos hpass]
    exact ⟨_, rfl⟩
  obtain ⟨t, ht⟩ := hsweep
  rw [ht, List.map_cons]
  rfl

theorem compute_cell_id_zero (res : GridRes)
    (hx : 0 < res.x) (hy : 0 < res.y) (hz : 0 < res.z) :
    compute_cell_id res 0 =
      some { final_idx := 0, local_cell := ⟨0, 0, 0⟩,
             stride := 2 ^ max_lvl res } := by
  rw [compute_cell_id, cellVisitOrder_head res hx hy hz]
  simp [cell_id_to_grid_loc]

/-- C1 For every grid probe resolution with all components at least 1,
the hierarchical cell-visit sweep of `compute_cell_id` is a bijection: as
the sample index ranges over `[0, rx*ry*rz)` the returned final linear
cell index takes every value in `[0, rx*ry*rz)` exactly once (and the
result is always defined), and for sample index 0 the returned local cell
coordinate has all three components congruent to 0 modulo the coarsest
stride `2 ^ floor(log2(max(rx, ry, rz)))`. -/
theorem compute_cell_id_sweep_bijection (rx ry rz : Nat)
    (hx : 1 ≤ rx) (hy : 1 ≤ ry) (hz : 1 ≤ rz) :
    ((List.range (rx * ry * rz)).filterMap
        (fun k => (compute_cell_id ⟨rx, ry, rz⟩ k).map CellSample.final_idx)).Perm
      (List.range (rx * ry * rz)) ∧
    (∀ k, k < rx * ry * rz → (compute_cell_id ⟨rx, ry, rz⟩ k).isSome = true) ∧
    (∀ cs, compute_cell_id ⟨rx, ry, rz⟩ 0 = some cs →
       cs.local_cell.x % 2 ^ max_lvl ⟨rx, ry, rz⟩ = 0 ∧
       cs.local_cell.y % 2 ^ max_lvl ⟨rx, ry, rz⟩ = 0 ∧
       cs.local_cell.z % 2 ^ max_lvl ⟨rx, ry, rz⟩ = 0) := by
  have hn : cellCount ⟨rx, ry, rz⟩ = rx * ry * rz := rfl
  refine ⟨?_, ?_, ?_⟩
  · have hfix : (fun k => (compute_cell_id ⟨rx, ry, rz⟩ k).map CellSample.final_idx) =
        (fun k => ((cellVisitOrder ⟨rx, ry, rz⟩).get? k).map Prod.fst) := by
      funext k
      rw [compute_cell_id, Option.map_map]
      rfl
    rw [hfix, ← hn, ← cellVisitOrder_length ⟨rx, ry, rz⟩ hx hy hz,
      filterMap_get?_range Prod.fst (cellVisitOrder ⟨rx, ry, rz⟩),
      cellVisitOrder_length ⟨rx, ry, rz⟩ hx hy hz, hn]
    have h := visit_perm ⟨rx, ry, rz⟩ hx hy hz
    rw [hn] at h
    exact h
  · intro k hk
    exact compute_cell_id_isSome ⟨rx, ry, rz⟩ hx hy hz k (by rw [hn]; exact hk)
  · intro cs hcs
    rw [compute_cell_id_zero ⟨rx, ry, rz⟩ hx hy hz] at hcs
    cases hcs
    refine ⟨Nat.zero_mod _, Nat.zero_mod _, Nat.zero_mod _⟩

/-- C1 witness: the bijection theorem instantiated at resolution
(2, 3, 2). -/
theorem compute_cell_id_sweep_bijection_witness :
    1 ≤ 2 ∧ 1 ≤ 3 ∧ (1 : Nat) ≤ 2 ∧
    (((List.range (2 * 3 * 2)).filterMap
        (fun k => (compute_cell_id ⟨2, 3, 2⟩ k).map CellSample.final_idx)).Perm
      (List.range (2 * 3 * 2)) ∧
     (∀ k, k < 2 * 3 * 2 → (compute_cell_id ⟨2, 3, 2⟩ k).isSome = true) ∧
     (∀ cs, compute_cell_id ⟨2, 3, 2⟩ 0 = some cs →
        cs.local_cell.x % 2 ^ max_lvl ⟨2, 3, 2⟩ = 0 ∧
        cs.local_cell.y % 2 ^ max_lvl ⟨2, 3, 2⟩ = 0 ∧
        cs.local_cell.z % 2 ^ max_lvl ⟨2, 3, 2⟩ = 0)) :=
  ⟨by decide, by decide, by decide,
   compute_cell_id_sweep_bijection 2 3 2 (by decide) (by decide) (by decide)⟩

/-- C8 For every in-range grid-probe sample, the render step is followed
by exactly one diffuse-filter invocation into the sample's atlas slot, a
visibility-filter invocation occurs iff the current bounce is bounce 0,
and a glossy (reflection) filter is never invoked — under any bounce,
sample index, or last-sample status. -/
theorem grid_sample_filter_spec (bounce : Nat) (res : GridRes)
    (offset sample : Nat) (is_last : Bool) (h : sample < cellCount res) :
    ∃ slot,
      sampleRenderOps (SampleDesc.grid bounce res offset sample is_last) =
        [RenderOp.render_scene, RenderOp.filter_diffuse slot] ++
        (if bounce = 0 then [RenderOp.filter_visibility slot] else []) ++
        (if is_last then [RenderOp.copy_irradiance] else []) ∧
      (sampleRenderOps (SampleDesc.grid bounce res offset sample is_last)).countP
        isDiffuseFilter = 1 ∧
      (sampleRenderOps (SampleDesc.grid bounce res offset sample is_last)).countP
        isGlossyFilter = 0 ∧
      (sampleRenderOps (SampleDesc.grid bounce res offset sample is_last)).countP
        isVisibilityFilter = (if bounce = 0 then 1 else 0) := by
  have hpos : 0 < cellCount res := by omega
  have hx : 0 < res.x := by
    rcases Nat.eq_zero_or_pos res.x with h0 | h0
    · rw [cellCount, h0] at hpos; simp at hpos
    · exact h0
  have hy : 0 < res.y := by
    rcases Nat.eq_zero_or_pos res.y with h0 | h0
    · rw [cellCount, h0] at hpos; simp at hpos
    · exact h0
  have hz : 0 < res.z := by
    rcases Nat.eq_zero_or_pos res.z with h0 | h0
    · rw [cellCount, h0] at hpos; simp at hpos
    · exact h0
  have hsome := compute_cell_id_isSome res hx hy hz sample h
  obtain ⟨cs, hcs⟩ := Option.isSome_iff_exists.1 hsome
  refine ⟨offset + cs.final_idx, ?_, ?_, ?_, ?_⟩
  · simp [sampleRenderOps, hcs]
  · by_cases hb : bounce = 0 <;> cases is_last <;>
      simp [sampleRenderOps, hcs, hb, isDiffuseFilter, List.countP_append,
        List.countP_cons]
  · by_cases hb : bounce = 0 <;> cases is_last <;>
      simp [sampleRenderOps, hcs, hb, isGlossyFilter, List.countP_append,
        List.countP_cons]
  · by_cases hb : bounce = 0 <;> cases is_last <;>
      simp [sampleRenderOps, hcs, hb, isVisibilityFilter, List.countP_append,
        List.countP_cons]

/-- C8 witness: the grid-sample filter theorem instantiated at bounce 0,
resolution (1, 1, 1), offset 1, sample 0. -/
theorem grid_sample_filter_spec_witness :
    0 < cellCount ⟨1, 1, 1⟩ ∧
    (∃ slot,
      sampleRenderOps (SampleDesc.grid 0 ⟨1, 1, 1⟩ 1 0 false) =
        [RenderOp.render_scene, RenderOp.filter_diffuse slot] ++
        (if (0 : Nat) = 0 then [RenderOp.filter_visibility slot] else []) ++
        (if (false : Bool) then [RenderOp.copy_irradiance] else []) ∧
      (sampleRenderOps (SampleDesc.grid 0 ⟨1, 1, 1⟩ 1 0 false)).countP
        isDiffuseFilter = 1 ∧
      (sampleRenderOps (SampleDesc.grid 0 ⟨1, 1, 1⟩ 1 0 false)).countP
        isGlossyFilter = 0 ∧
      (sampleRenderOps (SampleDesc.grid 0 ⟨1, 1, 1⟩ 1 0 false)).countP
        isVisibilityFilter = (if (0 : Nat) = 0 then 1 else 0)) :=
  ⟨by decide, grid_sample_filter_spec 0 ⟨1, 1, 1⟩ 1 0 false (by decide)⟩
